import Mathlib

/-!
# Verification of the DuckDuckGo MCP agent core

Shallow embedding of the repository's core components and proofs about them:

* `src/src/cache.py` — the TTL/capacity bounded `SearchCache` (Python dict
  modelled as an association list in insertion order, which is exactly the
  iteration order of a Python dict; MD5 key digests are modelled by the
  digested content string itself, which is injective in `(query, count)`
  because the count's decimal image contains no colon).
* `src/mcp_http_sse_server.py` — the SSE protocol dispatcher
  (`event_generator`), its provider adapter with textual failure
  classification, the result filter/dedup stage and the Markdown renderer.
* `src/src/server.py` — the cache-backed `/search` endpoint (`search_web`).

Time (`time.time()`) is passed explicitly as an `Int` instant; the upstream
DuckDuckGo provider is passed as an explicit oracle so that provider
invocations are observable in the result.
-/

namespace Duck

/-! ## Python string primitives

The handful of Python `str` operations the source leans on, implemented by
structural recursion over the character list so that every claim can be
evaluated on concrete inputs. -/

/-- Drop the leading whitespace characters (Python's notion of whitespace is
approximated by `Char.isWhitespace`; the sources only ever deal in ASCII). -/
def pyStripLeft : List Char → List Char
  | [] => []
  | c :: cs => if c.isWhitespace then pyStripLeft cs else c :: cs

/-- Python `s.strip()`: drop leading and trailing whitespace. -/
def pyStrip (s : String) : String :=
  ⟨(pyStripLeft (pyStripLeft s.data).reverse).reverse⟩

/-- Python `s.lower()` (ASCII case folding). -/
def pyLower (s : String) : String :=
  ⟨s.data.map Char.toLower⟩

/-- Whether `pat` occurs at the head of `cs`. -/
def startsWithChars : List Char → List Char → Bool
  | [], _ => true
  | _ :: _, [] => false
  | p :: ps, c :: cs => p == c && startsWithChars ps cs

/-- Whether `pat` occurs anywhere in `cs`. -/
def containsChars (pat : List Char) : List Char → Bool
  | [] => pat.isEmpty
  | c :: cs => startsWithChars pat (c :: cs) || containsChars pat cs

/-! ## Result cache — `src/src/cache.py` -/

/-- One cache slot: `self._cache[key] = {"data": ..., "timestamp": ...}`.
The `key` field records the dict key the slot is stored under. -/
structure CEntry (α : Type) where
  key : String
  timestamp : Int
  data : α
deriving DecidableEq, Repr

/-- `SearchCache.__init__`: configuration read once from settings, plus the
backing dict `_cache`, modelled as an association list in insertion order
(Python dicts iterate in insertion order, and overwriting a key keeps its
position). -/
structure SearchCache (α : Type) where
  enabled : Bool
  ttl : Int
  maxSize : Nat
  entries : List (CEntry α)
deriving DecidableEq, Repr

/-- `SearchCache._generate_key`: `md5(f"{query}:{max_results}")`.  The MD5
digest is modelled by the digested content string itself (the digest is a
deterministic function of it, and the content is injective in the pair since
the decimal count contains no colon). -/
def generateKey (query : String) (maxResults : Int) : String :=
  query ++ ":" ++ toString maxResults

/-- `SearchCache._is_expired`: `time.time() - entry["timestamp"] > self._ttl`. -/
def isExpired {α : Type} (c : SearchCache α) (now : Int) (e : CEntry α) : Bool :=
  now - e.timestamp > c.ttl

/-- Dict lookup `self._cache.get(key)`: first (= unique) entry stored under
`key`. -/
def findEntry {α : Type} (key : String) : List (CEntry α) → Option (CEntry α)
  | [] => none
  | e :: rest => if e.key = key then some e else findEntry key rest

/-- Dict deletion `del self._cache[key]`. -/
def delKey {α : Type} (key : String) : List (CEntry α) → List (CEntry α)
  | [] => []
  | e :: rest => if e.key = key then rest else e :: delKey key rest

/-- Dict write `self._cache[key] = entry`: overwrite in place when the key is
present (a Python dict keeps the original position), append otherwise. -/
def putEntry {α : Type} (key : String) (ts : Int) (d : α) :
    List (CEntry α) → List (CEntry α)
  | [] => [⟨key, ts, d⟩]
  | e :: rest =>
    if e.key = key then ⟨key, ts, d⟩ :: rest else e :: putEntry key ts d rest

/-- `min(self._cache.keys(), key=lambda k: self._cache[k]["timestamp"])`:
Python's `min` is stable, so it returns the first entry (in dict iteration
order = insertion order) with the smallest timestamp. -/
def argminFirst {α : Type} : List (CEntry α) → Option (CEntry α)
  | [] => none
  | e :: rest =>
    match argminFirst rest with
    | none => some e
    | some m => if e.timestamp ≤ m.timestamp then some e else some m

/-- `SearchCache._evict_oldest`: when `len(self._cache) >= self._max_size`,
delete the stably-minimal-timestamp key.  (Python would raise `ValueError`
on `min` of an empty dict, reachable only with `max_size = 0`; the claims
assume capacity ≥ 1, and that unreachable case is modelled as a no-op.) -/
def evictOldest {α : Type} (c : SearchCache α) : SearchCache α :=
  if c.maxSize ≤ c.entries.length then
    match argminFirst c.entries with
    | none => c
    | some oldest => { c with entries := delKey oldest.key c.entries }
  else c

/-- `SearchCache.get`: returns `(returned data or None, cache afterwards)`;
the only mutation is the purge of an expired entry. -/
def cacheGet {α : Type} (c : SearchCache α) (now : Int) (query : String)
    (maxResults : Int) : Option α × SearchCache α :=
  if c.enabled = false then (none, c)
  else
    let key := generateKey query maxResults
    match findEntry key c.entries with
    | none => (none, c)
    | some entry =>
      if isExpired c now entry then
        (none, { c with entries := delKey key c.entries })
      else (some entry.data, c)

/-- `SearchCache.set`: evict first (unconditionally before the key lookup),
then overwrite-or-insert with a fresh timestamp. -/
def cacheSet {α : Type} (c : SearchCache α) (now : Int) (query : String)
    (maxResults : Int) (d : α) : SearchCache α :=
  if c.enabled = false then c
  else
    let c1 := evictOldest c
    { c1 with entries := putEntry (generateKey query maxResults) now d c1.entries }

/-! ## SSE dispatcher — `src/mcp_http_sse_server.py` -/

/-- `APP_VERSION = "1.2.1"`. -/
def APP_VERSION : String := "1.2.1"

/-- `MAX_RESULTS_CAP = 10`. -/
def MAX_RESULTS_CAP : Int := 10

/-- `MAX_ALL_RESULTS_CAP = 10`. -/
def MAX_ALL_RESULTS_CAP : Int := 10

/-- One raw upstream record, read through `item.get("href"/"title"/"body", "")`:
absent keys are already folded into the empty-string default. -/
structure RawRecord where
  href : String
  title : String
  body : String
deriving DecidableEq, Repr

/-- The Python exception class distinction the adapter's `except` clauses
dispatch on: `TypeError` versus everything else (`ConnectionError`, `OSError`
and any other `Exception` are all handled by the same generic clause). -/
inductive PyExcKind where
  | typeError
  | otherError
deriving DecidableEq, Repr

/-- Outcome of one call into the DuckDuckGo provider (`ddgs.text(...)` plus the
surrounding `DDGS()` construction): a record list, or an exception with its
class and `str(e)` text. -/
inductive ProviderOutcome where
  | ok (records : List RawRecord)
  | fail (kind : PyExcKind) (msg : String)
deriving DecidableEq, Repr

/-- Python's substring test `pat in s` for a nonempty `pat` (every pattern the
source tests is a nonempty literal). -/
def strContains (s pat : String) : Bool :=
  containsChars pat.data s.data

/-- The network/DNS classification at lines 308–309:
`any(x in str(e).lower() for x in ["dns", "connection", "timeout", "refused", "unreachable"])`. -/
def isNetworkError (msg : String) : Bool :=
  let s := pyLower msg
  strContains s "dns" || strContains s "connection" || strContains s "timeout"
    || strContains s "refused" || strContains s "unreachable"

/-- The normalized parameters handed to `ddgs.text` by the enhanced call. -/
structure SearchArgs where
  query : String
  region : String
  safesearch : String
  timelimit : Option String
  maxResults : Int
deriving DecidableEq, Repr

/-- The provider-invocation block of `event_generator` (lines 268–316): the
enhanced call, the minimal-parameter fallback on a keyword mismatch, the
known `TypeError` format-bug absorption, and the network/DNS absorption.
`fullP` is the enhanced call `ddgs.text(query, region=…, …, max_results=…)`;
`minP` is the fallback `ddgs.text(query, max_results=…)`.  Returns the result
(`Except.error` = the exception escapes to the generator's outermost handler)
together with the log of full and minimal provider invocations.

A `raise` inside an `except` clause propagates out of the whole `try`
statement: a `TypeError` re-raised by the inner handler is re-examined only by
the *outer* `except TypeError` format-bug test (same message, same outcome)
and then escapes; it is never seen by the generic network clause. -/
def runSearchAdapter (fullP : SearchArgs → ProviderOutcome)
    (minP : String → Int → ProviderOutcome) (args : SearchArgs) :
    Except String (List RawRecord) × List SearchArgs × List (String × Int) :=
  match fullP args with
  | .ok rs => (.ok rs, [args], [])
  | .fail .typeError msg =>
    if strContains msg "unexpected keyword"
        || strContains msg "got an unexpected keyword argument" then
      match minP args.query args.maxResults with
      | .ok rs => (.ok rs, [args], [(args.query, args.maxResults)])
      | .fail .typeError m =>
        if strContains m "datetime.timedelta"
            || strContains m "unsupported format string" then
          (.ok [], [args], [(args.query, args.maxResults)])
        else (.error m, [args], [(args.query, args.maxResults)])
      | .fail .otherError m =>
        if isNetworkError m then (.ok [], [args], [(args.query, args.maxResults)])
        else (.error m, [args], [(args.query, args.maxResults)])
    else if strContains msg "datetime.timedelta"
        || strContains msg "unsupported format string" then
      (.ok [], [args], [])
    else (.error msg, [args], [])
  | .fail .otherError msg =>
    if isNetworkError msg then (.ok [], [args], [])
    else (.error msg, [args], [])

/-- Lines 321–327: eligibility test — the negation of
`if not title or not body: continue` applied to the stripped fields. -/
def eligibleRecord (r : RawRecord) : Bool :=
  !(pyStrip r.title == "") && !(pyStrip r.body == "")

/-- Lines 318–337, the filter/dedup loop over `raw_results` with its
`seen_hrefs` set (modelled as a list; only membership is used). -/
def filterDedupGo (seen : List String) : List RawRecord → List RawRecord
  | [] => []
  | item :: rest =>
    let href := pyStrip item.href
    if ¬ eligibleRecord item then filterDedupGo seen rest
    else if href ≠ "" ∧ href ∈ seen then filterDedupGo seen rest
    else if href ≠ "" then item :: filterDedupGo (href :: seen) rest
    else item :: filterDedupGo seen rest

/-- The result transformer's filter/dedup stage: `seen_hrefs = set()` then the
loop.  Kept items are the original raw records (`results.append(item)`). -/
def filterDedup (raw : List RawRecord) : List RawRecord :=
  filterDedupGo [] raw

/-- `" ".join(body.split())`: collapse internal whitespace runs to single
spaces and drop the boundary ones. -/
def collapseWs (s : String) : String :=
  " ".intercalate ((s.split (fun c => c.isWhitespace)).filter (fun t => t ≠ ""))

/-- Lines 357–360: whitespace collapse, then truncation
`body[:197] + "..."` when `len(body) > 200`. -/
def truncateSnippet (body : String) : String :=
  let b := collapseWs body
  if 200 < b.length then b.take 197 ++ "..." else b

/-- Modelled from the spec: the "short host/domain hint extracted from the
locator".  The source calls `urllib.parse.urlparse(href).netloc`, Python
standard-library code that is not part of this repository: for a
`scheme://netloc/...` locator it is the text between the first `"://"` and
the next path/query/fragment delimiter, and it is empty when the locator has
no `"://"`. -/
def netlocOf (href : String) : String :=
  match href.splitOn "://" with
  | _ :: rest :: _ =>
    (((((rest.splitOn "/").headD "").splitOn "?").headD "").splitOn "#").headD ""
  | _ => ""

/-- Lines 352–372: one rendered entry of the Markdown block (`i` is the
1-based position from `enumerate(results, 1)`). -/
def formatResultLine (i : Nat) (item : RawRecord) : String :=
  let title := pyStrip item.title
  let href := pyStrip item.href
  let body := truncateSnippet (pyStrip item.body)
  if href ≠ "" then
    let d := netlocOf href
    let domain := if d = "" then "link" else d
    "**" ++ toString i ++ ". [" ++ title ++ "](" ++ href ++ ")**\n   📍 "
      ++ domain ++ "\n   " ++ body
  else
    "**" ++ toString i ++ ". " ++ title ++ "**\n   " ++ body

/-- Lines 350–379: the full Markdown block — summary header plus the
double-newline-joined entries. -/
def formatResults (query : String) (results : List RawRecord) : String :=
  let lines := results.enum.map (fun p => formatResultLine (p.1 + 1) p.2)
  "## Search Results for: _" ++ query ++ "_\n**Found "
    ++ toString results.length ++ " result"
    ++ (if results.length ≠ 1 then "s" else "") ++ "**\n\n"
    ++ "\n\n".intercalate lines

/-- The `result` payloads the dispatcher can yield.  The static handshake and
listing descriptors carry the identifying fields the source builds (protocol
version / server identity; resource descriptor; the tool's name and declared
required parameters from its input schema). -/
inductive ResultBody where
  | initializeResult (protocolVersion serverName serverVersion : String)
  | resourcesListResult (uri name description : String)
  | toolsListResult (toolName : String) (requiredParams : List String)
  | content (text : String)
deriving DecidableEq, Repr

/-- The JSON document of one SSE `data:` field. -/
inductive Payload where
  | result (body : ResultBody)
  | wrapped (id : Int) (body : ResultBody)
  | wrappedError (id : Int) (code : Int) (message : String)
  | bareError (message : String)
  | emptyObj
deriving DecidableEq, Repr

/-- One SSE frame as built by `create_sse_message(event, data)` (which
renders it as `event: {event}\ndata: {json.dumps(data)}\n\n`). -/
structure SseFrame where
  event : String
  payload : Payload
deriving DecidableEq, Repr

/-- The terminal `yield create_sse_message("done", {})`. -/
def doneFrame : SseFrame := ⟨"done", .emptyObj⟩

/-- `wrap_response` (lines 123–127): JSON-RPC-wrap exactly when
`is_jsonrpc and request_id is not None`. -/
def wrapResponse (isJsonrpc : Bool) (requestId : Option Int)
    (body : ResultBody) : Payload :=
  match requestId, isJsonrpc with
  | some i, true => .wrapped i body
  | _, _ => .result body

/-- The error-emission pattern repeated at lines 224–239, 387–400, 404–417
and 420–433: a `message` frame with a JSON-RPC error object when
`is_jsonrpc and request_id is not None`, else an `error` frame with a bare
`{"message": ...}` object. -/
def errorFrame (isJsonrpc : Bool) (requestId : Option Int) (code : Int)
    (msg : String) : SseFrame :=
  match requestId, isJsonrpc with
  | some i, true => ⟨"message", .wrappedError i code msg⟩
  | _, _ => ⟨"error", .bareError msg⟩

/-- `arguments.get("max_results", 5)` followed by `int(...)`: the key is
absent (so `int(5)` = 5), or `int` parses the value to `n`, or `int` raises
and the `except` resets to 5. -/
inductive MaxResultsArg where
  | absent
  | parsed (n : Int)
  | unparseable
deriving DecidableEq, Repr

/-- The `arguments` document of a `tools/call` request; each field as the
source reads it.  `query` is modelled as an optional string (`None`/absent
versus present text; Python truthiness of a string is nonemptiness),
`allResults` as the result of the `bool(...)` coercion. -/
structure ToolArguments where
  query : Option String
  maxResults : MaxResultsArg
  allResults : Bool
  region : Option String
  safesearch : Option String
  timelimit : Option String
deriving DecidableEq, Repr

/-- The inbound envelope: `body.get("method")`, `body.get("id")`,
`body.get("jsonrpc")`, and the `params` fields the dispatcher reads
(`params.get("name")` and `params.get("arguments", {})`).  The opaque `id`
is modelled as an integer. -/
structure Envelope where
  method : Option String
  requestId : Option Int
  jsonrpc : Option String
  toolName : Option String
  arguments : ToolArguments
deriving DecidableEq, Repr

/-- `str(None)` / `str(s)` for the optional tool name interpolated into
`f"Unknown tool: {tool_name}"`. -/
def pyStr : Option String → String
  | none => "None"
  | some s => s

/-- Line 117: `is_jsonrpc = body.get("jsonrpc") == "2.0"`. -/
def envIsJsonrpc (body : Envelope) : Bool :=
  body.jsonrpc = some "2.0"

/-- Lines 242–251: the effective result count.  `all_results` short-circuits
to the hard cap; otherwise parse (default 5 on failure) and clamp into
`[1, MAX_RESULTS_CAP]` via `max(1, min(requested, MAX_RESULTS_CAP))`. -/
def resolveEffectiveMax (allResults : Bool) (m : MaxResultsArg) : Int :=
  if allResults then MAX_ALL_RESULTS_CAP
  else
    let requested : Int :=
      match m with
      | .absent => 5
      | .parsed n => n
      | .unparseable => 5
    max 1 (min requested MAX_RESULTS_CAP)

/-- Line 254: `str(arguments.get("region", "wt-wt")).strip() or "wt-wt"`. -/
def normalizeRegion (r : Option String) : String :=
  let s := pyStrip (r.getD "wt-wt")
  if s = "" then "wt-wt" else s

/-- Lines 255–257: lowercase, then fall back to `"moderate"` outside the
enum. -/
def normalizeSafesearch (s : Option String) : String :=
  let v := pyLower (s.getD "moderate")
  if v = "off" ∨ v = "moderate" ∨ v = "strict" then v else "moderate"

/-- Lines 258–262: `None` stays unset; otherwise lowercase and reset to
`None` outside the enum. -/
def normalizeTimelimit : Option String → Option String
  | none => none
  | some s =>
    let v := pyLower s
    if v = "d" ∨ v = "w" ∨ v = "m" ∨ v = "y" then some v else none

/-- The normalized `SearchArgs` a truthy query is searched with
(lines 242–262). -/
def normalizedSearchArgs (q : String) (a : ToolArguments) : SearchArgs :=
  { query := q
    region := normalizeRegion a.region
    safesearch := normalizeSafesearch a.safesearch
    timelimit := normalizeTimelimit a.timelimit
    maxResults := resolveEffectiveMax a.allResults a.maxResults }

/-- What one run of `event_generator` produced: the ordered frame sequence
plus the log of provider invocations (enhanced-parameter calls and
minimal-parameter fallback calls). -/
structure DispatchResult where
  frames : List SseFrame
  fullCalls : List SearchArgs
  minimalCalls : List (String × Int)
deriving DecidableEq, Repr

/-- `event_generator` (lines 111–440), the protocol dispatcher.  The method
routing, the `web_search` pipeline (early exit on a falsy query without the
`done` frame; parameter normalization; adapter; filter/dedup; rendering), the
unknown-tool / absent-method / unknown-method error frames, the
unconditional trailing `done` frame of every fall-through path, and the
outermost `except` that converts an escaped exception into a single bare
`error` frame (after which the generator ends without `done`). -/
def eventGenerator (body : Envelope) (fullP : SearchArgs → ProviderOutcome)
    (minP : String → Int → ProviderOutcome) : DispatchResult :=
  let isJsonrpc := envIsJsonrpc body
  let rid := body.requestId
  match body.method with
  | none =>
    ⟨[errorFrame isJsonrpc rid (-32600) "No method specified in request",
      doneFrame], [], []⟩
  | some m =>
    if m = "initialize" then
      ⟨[⟨"message", wrapResponse isJsonrpc rid
          (.initializeResult "2025-06-18" "DuckDuckGo Web Search" APP_VERSION)⟩,
        doneFrame], [], []⟩
    else if m = "resources/list" then
      ⟨[⟨"message", wrapResponse isJsonrpc rid
          (.resourcesListResult "mcp://duckduckgo/search" "DuckDuckGo Search"
            "Web search via DuckDuckGo")⟩,
        doneFrame], [], []⟩
    else if m = "tools/list" then
      ⟨[⟨"message", wrapResponse isJsonrpc rid
          (.toolsListResult "web_search" ["query"])⟩,
        doneFrame], [], []⟩
    else if m = "notifications/initialized" then ⟨[doneFrame], [], []⟩
    else if m = "notifications/cancelled" then ⟨[doneFrame], [], []⟩
    else if m = "tools/call" then
      if body.toolName = some "web_search" then
        match body.arguments.query with
        | none =>
          ⟨[errorFrame isJsonrpc rid (-32602) "query parameter is required"],
            [], []⟩
        | some q =>
          if q = "" then
            ⟨[errorFrame isJsonrpc rid (-32602) "query parameter is required"],
              [], []⟩
          else
            let args := normalizedSearchArgs q body.arguments
            match runSearchAdapter fullP minP args with
            | (.error msg, fc, mc) =>
              ⟨[⟨"error", .bareError ("Error: " ++ msg)⟩], fc, mc⟩
            | (.ok raw, fc, mc) =>
              let results := filterDedup raw
              if results.isEmpty then
                ⟨[⟨"message", wrapResponse isJsonrpc rid
                    (.content ("No results found for: " ++ q))⟩,
                  doneFrame], fc, mc⟩
              else
                ⟨[⟨"message", wrapResponse isJsonrpc rid
                    (.content (formatResults q results))⟩,
                  doneFrame], fc, mc⟩
      else
        ⟨[errorFrame isJsonrpc rid (-32601)
            ("Unknown tool: " ++ pyStr body.toolName),
          doneFrame], [], []⟩
    else
      ⟨[errorFrame isJsonrpc rid (-32601) ("Unknown method: " ++ m),
        doneFrame], [], []⟩

/-- A falsy `query` argument: absent/`None`, or the empty string
(`if not query`). -/
def queryIsFalsy (a : ToolArguments) : Bool :=
  match a.query with
  | none => true
  | some q => q = ""

/-- The step-1 early exit: a `web_search` `tools/call` whose `query` is
falsy. -/
def isEarlyExitPath (e : Envelope) : Bool :=
  e.method = some "tools/call" && e.toolName = some "web_search"
    && queryIsFalsy e.arguments

/-- Whether an `Except` is the error case. -/
def exceptIsError {ε α : Type} : Except ε α → Bool
  | .error _ => true
  | .ok _ => false

/-- The uncaught-failure path: a searched `web_search` call whose adapter run
lets the exception escape to the generator's outermost handler. -/
def isUncaughtFailurePath (e : Envelope) (fullP : SearchArgs → ProviderOutcome)
    (minP : String → Int → ProviderOutcome) : Bool :=
  e.method = some "tools/call" && e.toolName = some "web_search"
    && !queryIsFalsy e.arguments
    && (match e.arguments.query with
        | none => false
        | some q =>
          exceptIsError
            (runSearchAdapter fullP minP (normalizedSearchArgs q e.arguments)).1)

/-! ## Cache-backed `/search` endpoint — `src/src/server.py` -/

/-- One `SearchResult` pydantic model built at lines 262–268:
`title=result.get("title", "")`, `url=result.get("href", "")`,
`snippet=result.get("body", "")` — no trimming, filtering or dedup here. -/
structure SWResult where
  title : String
  url : String
  snippet : String
deriving DecidableEq, Repr

/-- The `response_data` dict of `search_web` (lines 280–286), which is also
exactly what the cache stores. -/
structure SWData where
  results : List SWResult
  query : String
  count : Nat
  cached : Bool
  requestId : String
deriving DecidableEq, Repr

/-- Lines 238–239 on a cache hit: `cached_result["cached"] = True` and
`cached_result["request_id"] = request_id`, mutating the response dict. -/
def swMarkCached (d : SWData) (requestId : String) : SWData :=
  { d with cached := true, requestId := requestId }

/-- In-place update of the data of the entry stored under `key`, keeping its
timestamp and position: models Python mutating a dict object that is still
referenced by the cache slot. -/
def putDataForKey {α : Type} (key : String) (d : α) :
    List (CEntry α) → List (CEntry α)
  | [] => []
  | e :: rest =>
    if e.key = key then { e with data := d } :: rest
    else e :: putDataForKey key d rest

/-- The `response_data` dict built at lines 280–286 from the raw provider
records: converted results, the query, the result count, `cached: False`
and the request id. -/
def swDataOf (raws : List RawRecord) (query : String) (requestId : String) :
    SWData :=
  let results := raws.map (fun r => SWResult.mk r.title r.href r.body)
  ⟨results, query, results.length, false, requestId⟩

/-- `search_web` (lines 226–297) on an already-validated request: cache
lookup first; on a hit (`if cached_result:` — the stored dict is non-empty,
hence truthy, so a hit is exactly a non-`None` return) mutate the shared
dict's `cached`/`request_id` fields (visible through the cache slot too) and
return it without touching the provider; on a miss invoke the provider once —
a provider exception becomes `SearchException(f"Web search failed: {str(e)}")`
and nothing is cached — else build `response_data` with `cached=False`, store
it, and return it.  The third component counts provider invocations. -/
def searchWeb (c : SearchCache SWData) (now : Int) (query : String)
    (maxResults : Int) (requestId : String)
    (provider : Except String (List RawRecord)) :
    Except String SWData × SearchCache SWData × Nat :=
  match cacheGet c now query maxResults with
  | (some cachedResult, c1) =>
    let updated := swMarkCached cachedResult requestId
    (.ok updated,
      { c1 with entries :=
          putDataForKey (generateKey query maxResults) updated c1.entries },
      0)
  | (none, c1) =>
    match provider with
    | .error e => (.error ("Web search failed: " ++ e), c1, 1)
    | .ok raws =>
      let data := swDataOf raws query requestId
      (.ok data, cacheSet c1 now query maxResults data, 1)

/-! ## Cache lemmas -/

theorem argminFirst_isSome {α : Type} (a : CEntry α) (l : List (CEntry α)) :
    (argminFirst (a :: l)).isSome := by
  cases h : argminFirst l with
  | none => simp [argminFirst, h]
  | some m =>
    simp only [argminFirst, h]
    split <;> simp

theorem argminFirst_spec {α : Type} (l : List (CEntry α)) (e : CEntry α)
    (h : argminFirst l = some e) :
    e ∈ l ∧ ∀ x ∈ l, e.timestamp ≤ x.timestamp := by
  induction l generalizing e with
  | nil => simp [argminFirst] at h
  | cons a rest ih =>
    cases hm : argminFirst rest with
    | none =>
      simp only [argminFirst, hm] at h
      obtain rfl : a = e := Option.some.inj h
      cases rest with
      | nil =>
        refine ⟨List.mem_singleton_self a, ?_⟩
        intro x hx
        simp only [List.mem_singleton] at hx
        subst hx; exact le_refl _
      | cons b bs =>
        exact absurd hm (by
          have h2 := argminFirst_isSome b bs
          intro hc; rw [hc] at h2; simp at h2)
    | some m =>
      simp only [argminFirst, hm] at h
      obtain ⟨hmem, hmin⟩ := ih m hm
      by_cases hle : a.timestamp ≤ m.timestamp
      · rw [if_pos hle] at h
        obtain rfl : a = e := Option.some.inj h
        refine ⟨List.mem_cons_self a rest, ?_⟩
        intro x hx
        rcases List.mem_cons.mp hx with hx | hx
        · subst hx; exact le_refl _
        · exact le_trans hle (hmin x hx)
      · rw [if_neg hle] at h
        obtain rfl : m = e := Option.some.inj h
        refine ⟨List.mem_cons_of_mem a hmem, ?_⟩
        intro x hx
        rcases List.mem_cons.mp hx with hx | hx
        · subst hx; exact le_of_not_le hle
        · exact hmin x hx

theorem delKey_decomp {α : Type} (key : String) (l : List (CEntry α))
    (e : CEntry α) (h : findEntry key l = some e) :
    ∃ l₁ l₂, l = l₁ ++ e :: l₂ ∧ delKey key l = l₁ ++ l₂ := by
  induction l with
  | nil => simp [findEntry] at h
  | cons a rest ih =>
    by_cases hk : a.key = key
    · simp only [findEntry, if_pos hk] at h
      obtain rfl : a = e := Option.some.inj h
      exact ⟨[], rest, by simp, by simp [delKey, hk]⟩
    · simp only [findEntry, if_neg hk] at h
      obtain ⟨l₁, l₂, h1, h2⟩ := ih h
      exact ⟨a :: l₁, l₂, by simp [h1], by simp [delKey, hk, h2]⟩

theorem findEntry_of_mem_nodup {α : Type} (l : List (CEntry α)) (e : CEntry α)
    (hmem : e ∈ l) (hnd : (l.map (fun x => x.key)).Nodup) :
    findEntry e.key l = some e := by
  induction l with
  | nil => simp at hmem
  | cons a rest ih =>
    simp only [List.map_cons, List.nodup_cons] at hnd
    rcases List.mem_cons.mp hmem with rfl | hmem'
    · simp [findEntry]
    · have hk : a.key ≠ e.key := by
        intro hke
        exact hnd.1 (hke ▸ List.mem_map_of_mem (fun x => x.key) hmem')
      rw [findEntry, if_neg hk]
      exact ih hmem' hnd.2

theorem putEntry_length {α : Type} (key : String) (ts : Int) (d : α)
    (l : List (CEntry α)) : (putEntry key ts d l).length ≤ l.length + 1 := by
  induction l with
  | nil => simp [putEntry]
  | cons a rest ih =>
    by_cases hk : a.key = key
    · simp [putEntry, hk]
    · simp only [putEntry, if_neg hk, List.length_cons]
      omega

theorem findEntry_putEntry {α : Type} (key : String) (ts : Int) (d : α)
    (l : List (CEntry α)) :
    findEntry key (putEntry key ts d l) = some ⟨key, ts, d⟩ := by
  induction l with
  | nil => simp [putEntry, findEntry]
  | cons a rest ih =>
    by_cases hk : a.key = key
    · simp [putEntry, hk, findEntry]
    · simp [putEntry, if_neg hk, findEntry, ih]

theorem delKey_sublist {α : Type} (key : String) (l : List (CEntry α)) :
    List.Sublist (delKey key l) l := by
  induction l with
  | nil => simp [delKey]
  | cons a rest ih =>
    by_cases hk : a.key = key
    · rw [delKey, if_pos hk]
      exact List.sublist_cons_self a rest
    · rw [delKey, if_neg hk]
      exact List.Sublist.cons₂ a ih

theorem mem_delKey_of_ne {α : Type} (key : String) (l : List (CEntry α))
    (x : CEntry α) (hx : x ∈ l) (hne : x.key ≠ key) : x ∈ delKey key l := by
  induction l with
  | nil => simp at hx
  | cons a rest ih =>
    by_cases hk : a.key = key
    · rw [delKey, if_pos hk]
      rcases List.mem_cons.mp hx with rfl | h
      · exact absurd hk hne
      · exact h
    · rw [delKey, if_neg hk]
      rcases List.mem_cons.mp hx with rfl | h
      · exact List.mem_cons_self x (delKey key rest)
      · exact List.mem_cons_of_mem a (ih h)

theorem evictOldest_config {α : Type} (c : SearchCache α) :
    (evictOldest c).enabled = c.enabled ∧ (evictOldest c).ttl = c.ttl ∧
      (evictOldest c).maxSize = c.maxSize := by
  unfold evictOldest
  split
  · split <;> simp
  · simp

/-! ## Claim theorems: cache -/

/-- **C5** — for every enabled cache with capacity `N ≥ 1` (dict keys unique):
a store when the cache holds `N` entries first evicts exactly one entry,
whose timestamp is globally minimal, and then inserts, so a store never
leaves more than `N` entries; a read never modifies surviving entries (the
post-read entry list is a sublist of the pre-read one, so timestamps are
never refreshed by reads); and after a store the stored key holds exactly
the fresh timestamp and the fresh data, whether or not the key existed. -/
theorem cache_store_eviction_spec {α : Type} (c : SearchCache α) (now : Int)
    (q : String) (n : Int) (d : α)
    (hen : c.enabled = true) (hN : 1 ≤ c.maxSize)
    (hkeys : (c.entries.map (fun x => x.key)).Nodup) :
    (c.entries.length ≤ c.maxSize →
      (cacheSet c now q n d).entries.length ≤ c.maxSize)
    ∧ (c.entries.length = c.maxSize →
      ∃ l₁ e l₂, c.entries = l₁ ++ e :: l₂ ∧
        (∀ x ∈ c.entries, e.timestamp ≤ x.timestamp) ∧
        (cacheSet c now q n d).entries =
          putEntry (generateKey q n) now d (l₁ ++ l₂))
    ∧ List.Sublist (cacheGet c now q n).2.entries c.entries
    ∧ findEntry (generateKey q n) (cacheSet c now q n d).entries =
      some ⟨generateKey q n, now, d⟩ := by
  have hset : (cacheSet c now q n d).entries =
      putEntry (generateKey q n) now d (evictOldest c).entries := by
    simp [cacheSet, hen]
  have hevict : c.entries.length = c.maxSize →
      ∃ l₁ e l₂, c.entries = l₁ ++ e :: l₂ ∧
        (∀ x ∈ c.entries, e.timestamp ≤ x.timestamp) ∧
        (evictOldest c).entries = l₁ ++ l₂ := by
    intro hlen
    have hne : c.entries ≠ [] := by
      intro h0
      rw [h0] at hlen
      simp at hlen
      omega
    obtain ⟨a, rest, hrest⟩ := List.exists_cons_of_ne_nil hne
    have h1 : (argminFirst c.entries).isSome := by
      rw [hrest]; exact argminFirst_isSome a rest
    obtain ⟨m, hm⟩ := Option.isSome_iff_exists.mp h1
    obtain ⟨hmem, hmin⟩ := argminFirst_spec _ _ hm
    have hfind : findEntry m.key c.entries = some m :=
      findEntry_of_mem_nodup _ _ hmem hkeys
    obtain ⟨l₁, l₂, hl, hdel⟩ := delKey_decomp _ _ _ hfind
    refine ⟨l₁, m, l₂, hl, hmin, ?_⟩
    unfold evictOldest
    rw [if_pos (by omega), hm]
    simpa using hdel
  refine ⟨?_, ?_, ?_, ?_⟩
  · intro hle
    rw [hset]
    by_cases hcap : c.maxSize ≤ c.entries.length
    · have hlen : c.entries.length = c.maxSize := le_antisymm hle hcap
      obtain ⟨l₁, e, l₂, hl, _, hev⟩ := hevict hlen
      rw [hev]
      have hp := putEntry_length (generateKey q n) now d (l₁ ++ l₂)
      have hlen2 : l₁.length + l₂.length + 1 = c.entries.length := by
        rw [hl]; simp; omega
      simp only [List.length_append] at hp
      omega
    · have hev : (evictOldest c).entries = c.entries := by
        unfold evictOldest; rw [if_neg hcap]
      rw [hev]
      have hp := putEntry_length (generateKey q n) now d c.entries
      omega
  · intro hlen
    obtain ⟨l₁, e, l₂, hl, hmin, hev⟩ := hevict hlen
    exact ⟨l₁, e, l₂, hl, hmin, by rw [hset, hev]⟩
  · cases hf : findEntry (generateKey q n) c.entries with
    | none => simp [cacheGet, hen, hf]
    | some entry =>
      simp only [cacheGet, hen, Bool.true_eq_false, if_false, hf]
      split
      · exact delKey_sublist _ _
      · exact List.Sublist.refl _
  · rw [hset]
    exact findEntry_putEntry _ _ _ _

/-- Concrete run of `cache_store_eviction_spec` on a two-entry cache at
capacity 2. -/
theorem cache_store_eviction_spec_witness :
    ((⟨true, 100, 2, [⟨"a:1", 5, 1⟩, ⟨"b:1", 3, 2⟩]⟩ :
        SearchCache Nat).entries.length ≤ 2 →
      (cacheSet ⟨true, 100, 2, [⟨"a:1", 5, 1⟩, ⟨"b:1", 3, 2⟩]⟩ 50 "c" 1
        7).entries.length ≤ 2)
    ∧ ((⟨true, 100, 2, [⟨"a:1", 5, 1⟩, ⟨"b:1", 3, 2⟩]⟩ :
        SearchCache Nat).entries.length = 2 →
      ∃ l₁ e l₂,
        (⟨true, 100, 2, [⟨"a:1", 5, 1⟩, ⟨"b:1", 3, 2⟩]⟩ :
          SearchCache Nat).entries = l₁ ++ e :: l₂ ∧
        (∀ x ∈ (⟨true, 100, 2, [⟨"a:1", 5, 1⟩, ⟨"b:1", 3, 2⟩]⟩ :
          SearchCache Nat).entries, e.timestamp ≤ x.timestamp) ∧
        (cacheSet ⟨true, 100, 2, [⟨"a:1", 5, 1⟩, ⟨"b:1", 3, 2⟩]⟩ 50 "c" 1
          7).entries = putEntry (generateKey "c" 1) 50 7 (l₁ ++ l₂))
    ∧ List.Sublist
        (cacheGet (⟨true, 100, 2, [⟨"a:1", 5, 1⟩, ⟨"b:1", 3, 2⟩]⟩ :
          SearchCache Nat) 50 "c" 1).2.entries
        [⟨"a:1", 5, 1⟩, ⟨"b:1", 3, 2⟩]
    ∧ findEntry (generateKey "c" 1)
        (cacheSet ⟨true, 100, 2, [⟨"a:1", 5, 1⟩, ⟨"b:1", 3, 2⟩]⟩ 50 "c" 1
          7).entries = some ⟨generateKey "c" 1, 50, 7⟩ :=
  cache_store_eviction_spec ⟨true, 100, 2, [⟨"a:1", 5, 1⟩, ⟨"b:1", 3, 2⟩]⟩
    50 "c" 1 7 rfl (by decide) (by decide)

/-- **C6** — for every enabled cache: a lookup returns data exactly when an
entry for the derived key is present with `now - timestamp ≤ ttl` (and then
it returns that entry's data unchanged); an expired entry is deleted by the
lookup, which returns absent; a lookup never touches any entry stored under
a different key. -/
theorem cache_lookup_spec {α : Type} (c : SearchCache α) (now : Int)
    (q : String) (n : Int) (hen : c.enabled = true) :
    ((cacheGet c now q n).1.isSome ↔
      ∃ e, findEntry (generateKey q n) c.entries = some e ∧
        now - e.timestamp ≤ c.ttl)
    ∧ (∀ e, findEntry (generateKey q n) c.entries = some e →
        now - e.timestamp ≤ c.ttl →
        cacheGet c now q n = (some e.data, c))
    ∧ (∀ e, findEntry (generateKey q n) c.entries = some e →
        c.ttl < now - e.timestamp →
        cacheGet c now q n =
          (none, { c with entries := delKey (generateKey q n) c.entries }))
    ∧ (findEntry (generateKey q n) c.entries = none →
        cacheGet c now q n = (none, c))
    ∧ (∀ x ∈ c.entries, x.key ≠ generateKey q n →
        x ∈ (cacheGet c now q n).2.entries) := by
  refine ⟨?_, ?_, ?_, ?_, ?_⟩
  · cases hfe : findEntry (generateKey q n) c.entries with
    | none => simp [cacheGet, hen, hfe]
    | some e =>
      by_cases hexp : now - e.timestamp ≤ c.ttl
      · have hb : isExpired c now e = false := by
          simp only [isExpired, gt_iff_lt, decide_eq_false_iff_not, not_lt]
          omega
        rw [show cacheGet c now q n = (some e.data, c) from by
          simp [cacheGet, hen, hfe, hb]]
        simp only [Option.isSome_some, true_iff]
        exact ⟨e, rfl, hexp⟩
      · have hb : isExpired c now e = true := by
          simp only [isExpired, gt_iff_lt, decide_eq_true_eq]
          omega
        rw [show cacheGet c now q n =
            (none, { c with entries := delKey (generateKey q n) c.entries })
          from by simp [cacheGet, hen, hfe, hb]]
        simp only [Option.isSome_none, Bool.false_eq_true, false_iff]
        rintro ⟨e', he', hfr⟩
        obtain rfl : e = e' := Option.some.inj he'
        omega
  · intro e he hfr
    have hb : isExpired c now e = false := by
      simp only [isExpired, gt_iff_lt, decide_eq_false_iff_not, not_lt]
      omega
    simp [cacheGet, hen, he, hb]
  · intro e he hst
    have hb : isExpired c now e = true := by
      simp only [isExpired, gt_iff_lt, decide_eq_true_eq]
      omega
    simp [cacheGet, hen, he, hb]
  · intro h0
    simp [cacheGet, hen, h0]
  · intro x hx hne
    cases hfe : findEntry (generateKey q n) c.entries with
    | none => simpa [cacheGet, hen, hfe] using hx
    | some e =>
      by_cases hb : isExpired c now e = true
      · simp only [cacheGet, hen, Bool.true_eq_false, if_false, hfe, hb, if_true]
        exact mem_delKey_of_ne _ _ _ hx hne
      · simp only [Bool.not_eq_true] at hb
        simpa [cacheGet, hen, hfe, hb] using hx

/-- Concrete run of `cache_lookup_spec`: a fresh entry is returned, an
expired one purged. -/
theorem cache_lookup_spec_witness :
    ((cacheGet (⟨true, 100, 2, [⟨"a:1", 5, 11⟩]⟩ : SearchCache Nat)
        50 "a" 1).1.isSome ↔
      ∃ e, findEntry (generateKey "a" 1)
          (⟨true, 100, 2, [⟨"a:1", 5, 11⟩]⟩ :
            SearchCache Nat).entries = some e ∧
        50 - e.timestamp ≤ 100)
    ∧ (∀ e, findEntry (generateKey "a" 1)
          (⟨true, 100, 2, [⟨"a:1", 5, 11⟩]⟩ :
            SearchCache Nat).entries = some e →
        50 - e.timestamp ≤ 100 →
        cacheGet (⟨true, 100, 2, [⟨"a:1", 5, 11⟩]⟩ : SearchCache Nat)
          50 "a" 1 = (some e.data, ⟨true, 100, 2, [⟨"a:1", 5, 11⟩]⟩))
    ∧ (∀ e, findEntry (generateKey "a" 1)
          (⟨true, 100, 2, [⟨"a:1", 5, 11⟩]⟩ :
            SearchCache Nat).entries = some e →
        100 < 50 - e.timestamp →
        cacheGet (⟨true, 100, 2, [⟨"a:1", 5, 11⟩]⟩ : SearchCache Nat)
          50 "a" 1 =
          (none, ⟨true, 100, 2,
            delKey (generateKey "a" 1) [⟨"a:1", 5, 11⟩]⟩))
    ∧ (findEntry (generateKey "a" 1)
        (⟨true, 100, 2, [⟨"a:1", 5, 11⟩]⟩ :
          SearchCache Nat).entries = none →
      cacheGet (⟨true, 100, 2, [⟨"a:1", 5, 11⟩]⟩ : SearchCache Nat)
        50 "a" 1 = (none, ⟨true, 100, 2, [⟨"a:1", 5, 11⟩]⟩))
    ∧ (∀ x ∈ (⟨true, 100, 2, [⟨"a:1", 5, 11⟩]⟩ :
        SearchCache Nat).entries, x.key ≠ generateKey "a" 1 →
      x ∈ (cacheGet (⟨true, 100, 2, [⟨"a:1", 5, 11⟩]⟩ : SearchCache Nat)
          50 "a" 1).2.entries) :=
  cache_lookup_spec (⟨true, 100, 2, [⟨"a:1", 5, 11⟩]⟩ : SearchCache Nat)
    50 "a" 1 rfl

/-! ## Filter/dedup lemmas -/

theorem eligibleRecord_iff (r : RawRecord) :
    eligibleRecord r = true ↔ pyStrip r.title ≠ "" ∧ pyStrip r.body ≠ "" := by
  simp [eligibleRecord]

theorem filterDedupGo_cons_inel (seen : List String) (item : RawRecord)
    (rest : List RawRecord) (h1 : ¬ eligibleRecord item = true) :
    filterDedupGo seen (item :: rest) = filterDedupGo seen rest := by
  simp [filterDedupGo, h1]

theorem filterDedupGo_cons_seen (seen : List String) (item : RawRecord)
    (rest : List RawRecord) (h1 : eligibleRecord item = true)
    (h2 : pyStrip item.href ≠ "" ∧ pyStrip item.href ∈ seen) :
    filterDedupGo seen (item :: rest) = filterDedupGo seen rest := by
  simp [filterDedupGo, h1, h2]

theorem filterDedupGo_cons_keep (seen : List String) (item : RawRecord)
    (rest : List RawRecord) (h1 : eligibleRecord item = true)
    (h3 : pyStrip item.href ≠ "") (hmem : pyStrip item.href ∉ seen) :
    filterDedupGo seen (item :: rest) =
      item :: filterDedupGo (pyStrip item.href :: seen) rest := by
  simp [filterDedupGo, h1, h3, hmem]

theorem filterDedupGo_cons_nohref (seen : List String) (item : RawRecord)
    (rest : List RawRecord) (h1 : eligibleRecord item = true)
    (h3 : pyStrip item.href = "") :
    filterDedupGo seen (item :: rest) = item :: filterDedupGo seen rest := by
  simp [filterDedupGo, h1, h3]

theorem filterDedupGo_sublist (seen : List String) (raw : List RawRecord) :
    List.Sublist (filterDedupGo seen raw) raw := by
  induction raw generalizing seen with
  | nil => simp [filterDedupGo]
  | cons item rest ih =>
    by_cases h1 : eligibleRecord item = true
    · by_cases h2 : pyStrip item.href ≠ "" ∧ pyStrip item.href ∈ seen
      · rw [filterDedupGo_cons_seen seen item rest h1 h2]
        exact List.Sublist.cons item (ih seen)
      · by_cases h3 : pyStrip item.href ≠ ""
        · rw [filterDedupGo_cons_keep seen item rest h1 h3 (fun hm => h2 ⟨h3, hm⟩)]
          exact List.Sublist.cons₂ item (ih _)
        · rw [filterDedupGo_cons_nohref seen item rest h1 (not_not.mp h3)]
          exact List.Sublist.cons₂ item (ih seen)
    · rw [filterDedupGo_cons_inel seen item rest h1]
      exact List.Sublist.cons item (ih seen)

theorem filterDedupGo_eligible (seen : List String) (raw : List RawRecord) :
    ∀ r ∈ filterDedupGo seen raw, eligibleRecord r = true := by
  induction raw generalizing seen with
  | nil => simp [filterDedupGo]
  | cons item rest ih =>
    by_cases h1 : eligibleRecord item = true
    · by_cases h2 : pyStrip item.href ≠ "" ∧ pyStrip item.href ∈ seen
      · rw [filterDedupGo_cons_seen seen item rest h1 h2]
        exact ih seen
      · by_cases h3 : pyStrip item.href ≠ ""
        · rw [filterDedupGo_cons_keep seen item rest h1 h3 (fun hm => h2 ⟨h3, hm⟩)]
          intro r hr
          rcases List.mem_cons.mp hr with rfl | hr
          · exact h1
          · exact ih _ r hr
        · rw [filterDedupGo_cons_nohref seen item rest h1 (not_not.mp h3)]
          intro r hr
          rcases List.mem_cons.mp hr with rfl | hr
          · exact h1
          · exact ih seen r hr
    · rw [filterDedupGo_cons_inel seen item rest h1]
      exact ih seen

theorem filterDedupGo_not_mem_seen (seen : List String) (raw : List RawRecord)
    (h : String) (hne : h ≠ "") (hs : h ∈ seen) :
    ∀ r ∈ filterDedupGo seen raw, pyStrip r.href ≠ h := by
  induction raw generalizing seen with
  | nil => simp [filterDedupGo]
  | cons item rest ih =>
    by_cases h1 : eligibleRecord item = true
    · by_cases h2 : pyStrip item.href ≠ "" ∧ pyStrip item.href ∈ seen
      · rw [filterDedupGo_cons_seen seen item rest h1 h2]
        exact ih seen hs
      · by_cases h3 : pyStrip item.href ≠ ""
        · rw [filterDedupGo_cons_keep seen item rest h1 h3 (fun hm => h2 ⟨h3, hm⟩)]
          intro r hr
          rcases List.mem_cons.mp hr with rfl | hr
          · intro hEq
            exact h2 ⟨h3, hEq ▸ hs⟩
          · exact ih (pyStrip item.href :: seen)
              (List.mem_cons_of_mem _ hs) r hr
        · rw [filterDedupGo_cons_nohref seen item rest h1 (not_not.mp h3)]
          intro r hr
          rcases List.mem_cons.mp hr with rfl | hr
          · rw [not_not.mp h3]
            exact fun hEq => hne hEq.symm
          · exact ih seen hs r hr
    · rw [filterDedupGo_cons_inel seen item rest h1]
      exact ih seen hs

theorem filterDedupGo_countP (seen : List String) (raw : List RawRecord)
    (h : String) (hne : h ≠ "") :
    (filterDedupGo seen raw).countP (fun r => pyStrip r.href == h) ≤ 1 := by
  induction raw generalizing seen with
  | nil => simp [filterDedupGo]
  | cons item rest ih =>
    by_cases h1 : eligibleRecord item = true
    · by_cases h2 : pyStrip item.href ≠ "" ∧ pyStrip item.href ∈ seen
      · rw [filterDedupGo_cons_seen seen item rest h1 h2]
        exact ih seen
      · by_cases h3 : pyStrip item.href ≠ ""
        · rw [filterDedupGo_cons_keep seen item rest h1 h3 (fun hm => h2 ⟨h3, hm⟩)]
          by_cases heq : pyStrip item.href = h
          · have hz : (filterDedupGo (pyStrip item.href :: seen) rest).countP
                (fun r => pyStrip r.href == h) = 0 := by
              rw [List.countP_eq_zero]
              intro r hr
              simp only [beq_iff_eq]
              refine filterDedupGo_not_mem_seen (pyStrip item.href :: seen)
                rest h hne ?_ r hr
              rw [heq]
              exact List.mem_cons_self _ _
            rw [List.countP_cons, hz]
            simp [heq]
          · have hp : (pyStrip item.href == h) = false :=
              beq_eq_false_iff_ne.mpr heq
            simp only [List.countP_cons, hp, Bool.false_eq_true, if_false,
              add_zero]
            exact ih (pyStrip item.href :: seen)
        · have h3' := not_not.mp h3
          have hp : (pyStrip item.href == h) = false := by
            rw [h3']
            exact beq_eq_false_iff_ne.mpr (fun hEq => hne hEq.symm)
          rw [filterDedupGo_cons_nohref seen item rest h1 h3']
          simp only [List.countP_cons, hp, Bool.false_eq_true, if_false,
            add_zero]
          exact ih seen
    · rw [filterDedupGo_cons_inel seen item rest h1]
      exact ih seen

theorem filterDedupGo_find (seen : List String) (raw : List RawRecord)
    (h : String) (hne : h ≠ "") (hs : h ∉ seen) :
    (filterDedupGo seen raw).find? (fun r => pyStrip r.href == h) =
      raw.find? (fun r => eligibleRecord r && pyStrip r.href == h) := by
  induction raw generalizing seen with
  | nil => simp [filterDedupGo]
  | cons item rest ih =>
    by_cases h1 : eligibleRecord item = true
    · by_cases h2 : pyStrip item.href ≠ "" ∧ pyStrip item.href ∈ seen
      · have hneq : pyStrip item.href ≠ h := fun hEq => hs (hEq ▸ h2.2)
        rw [filterDedupGo_cons_seen seen item rest h1 h2,
          List.find?_cons_of_neg _ (by simp [hneq]), ih seen hs]
      · by_cases h3 : pyStrip item.href ≠ ""
        · rw [filterDedupGo_cons_keep seen item rest h1 h3 (fun hm => h2 ⟨h3, hm⟩)]
          by_cases heq : pyStrip item.href = h
          · rw [List.find?_cons_of_pos _ (by simp [heq]),
              List.find?_cons_of_pos _ (by simp [h1, heq])]
          · have hp : (pyStrip item.href == h) = false :=
              beq_eq_false_iff_ne.mpr heq
            have hs' : h ∉ pyStrip item.href :: seen := by
              intro hm
              rcases List.mem_cons.mp hm with hm | hm
              · exact heq hm.symm
              · exact hs hm
            rw [List.find?_cons_of_neg _ (by simp [hp]),
              List.find?_cons_of_neg _ (by simp [hp]),
              ih (pyStrip item.href :: seen) hs']
        · have h3' := not_not.mp h3
          have hp : (pyStrip item.href == h) = false := by
            rw [h3']
            exact beq_eq_false_iff_ne.mpr (fun hEq => hne hEq.symm)
          rw [filterDedupGo_cons_nohref seen item rest h1 h3',
            List.find?_cons_of_neg _ (by simp [hp]),
            List.find?_cons_of_neg _ (by simp [hp]), ih seen hs]
    · have h1' : eligibleRecord item = false := by simpa using h1
      rw [filterDedupGo_cons_inel seen item rest h1,
        List.find?_cons_of_neg _ (by simp [h1']), ih seen hs]

/-! ## Claim theorems: result transformer -/

/-- **C8, counterexample to the frozen claim** — two raw records share the
locator `""` (an exact, case-sensitive string match) yet the transformer
emits both of them: records without a locator are never deduplicated, so
"exactly one result record per shared locator" fails. -/
theorem transformer_dedup_cex :
    (filterDedup [⟨"", "t1", "b1"⟩, ⟨"", "t2", "b2"⟩]).countP
        (fun r => r.href == "") = 2
    ∧ (⟨"", "t1", "b1"⟩ : RawRecord).href =
        (⟨"", "t2", "b2"⟩ : RawRecord).href := by
  exact ⟨by decide, rfl⟩

/-- **C8 (amended)** — the transformer's output is a subsequence of the raw
sequence (first-seen order); no record with an empty stripped title or
snippet survives; for any nonempty locator value `h` (locators are compared
after stripping), at most one output record carries it, the one that is kept
is the first raw record with that stripped locator whose stripped title and
snippet are both nonempty, and when such a record exists exactly one output
record carries the locator.  Records whose stripped locator is empty bypass
deduplication (see the counterexample). -/
theorem transformer_dedup_spec (raw : List RawRecord) (h : String)
    (hne : h ≠ "") :
    List.Sublist (filterDedup raw) raw
    ∧ (∀ r ∈ filterDedup raw, pyStrip r.title ≠ "" ∧ pyStrip r.body ≠ "")
    ∧ (filterDedup raw).countP (fun r => pyStrip r.href == h) ≤ 1
    ∧ (filterDedup raw).find? (fun r => pyStrip r.href == h) =
        raw.find? (fun r => eligibleRecord r && pyStrip r.href == h)
    ∧ ((∃ r ∈ raw, eligibleRecord r = true ∧ pyStrip r.href = h) →
        (filterDedup raw).countP (fun r => pyStrip r.href == h) = 1) := by
  refine ⟨filterDedupGo_sublist [] raw, ?_,
    filterDedupGo_countP [] raw h hne,
    filterDedupGo_find [] raw h hne (by simp), ?_⟩
  · intro r hr
    exact (eligibleRecord_iff r).mp (filterDedupGo_eligible [] raw r hr)
  · rintro ⟨r, hrmem, helig, hrh⟩
    have hsome :
        (raw.find? (fun r => eligibleRecord r && pyStrip r.href == h)).isSome := by
      rw [List.find?_isSome]
      exact ⟨r, hrmem, by simp [helig, hrh]⟩
    rw [← filterDedupGo_find [] raw h hne (by simp)] at hsome
    obtain ⟨r', hr'⟩ := Option.isSome_iff_exists.mp hsome
    have hmem' := List.mem_of_find?_eq_some hr'
    have hpred := List.find?_some hr'
    have hpos : 0 < (filterDedup raw).countP (fun r => pyStrip r.href == h) := by
      rw [List.countP_pos_iff]
      exact ⟨r', hmem', hpred⟩
    have hle := filterDedupGo_countP [] raw h hne
    unfold filterDedup at hpos ⊢
    omega

/-- Concrete run of `transformer_dedup_spec` on two records sharing the
nonempty locator `"u"`. -/
theorem transformer_dedup_spec_witness :
    List.Sublist (filterDedup [⟨"u", "t1", "b1"⟩, ⟨"u", "t2", "b2"⟩])
      [⟨"u", "t1", "b1"⟩, ⟨"u", "t2", "b2"⟩]
    ∧ (∀ r ∈ filterDedup [⟨"u", "t1", "b1"⟩, ⟨"u", "t2", "b2"⟩],
        pyStrip r.title ≠ "" ∧ pyStrip r.body ≠ "")
    ∧ (filterDedup [⟨"u", "t1", "b1"⟩, ⟨"u", "t2", "b2"⟩]).countP
        (fun r => pyStrip r.href == "u") ≤ 1
    ∧ (filterDedup [⟨"u", "t1", "b1"⟩, ⟨"u", "t2", "b2"⟩]).find?
        (fun r => pyStrip r.href == "u") =
      List.find? (fun r => eligibleRecord r && pyStrip r.href == "u")
        [⟨"u", "t1", "b1"⟩, ⟨"u", "t2", "b2"⟩]
    ∧ ((∃ r ∈ [(⟨"u", "t1", "b1"⟩ : RawRecord), ⟨"u", "t2", "b2"⟩],
          eligibleRecord r = true ∧ pyStrip r.href = "u") →
        (filterDedup [⟨"u", "t1", "b1"⟩, ⟨"u", "t2", "b2"⟩]).countP
          (fun r => pyStrip r.href == "u") = 1) :=
  transformer_dedup_spec [⟨"u", "t1", "b1"⟩, ⟨"u", "t2", "b2"⟩] "u" (by decide)

/-! ## Dispatcher lemmas -/

theorem runSearchAdapter_calls (fullP : SearchArgs → ProviderOutcome)
    (minP : String → Int → ProviderOutcome) (a : SearchArgs) :
    (runSearchAdapter fullP minP a).2.1 = [a] := by
  rcases h : fullP a with rs | ⟨k, msg⟩
  · simp [runSearchAdapter, h]
  · cases k
    · simp only [runSearchAdapter, h]
      split
      · rcases h2 : minP a.query a.maxResults with rs2 | ⟨k2, m2⟩
        · simp [h2]
        · cases k2 <;> simp only [h2] <;> split <;> rfl
      · split <;> rfl
    · simp only [runSearchAdapter, h]
      split <;> rfl

theorem eventGenerator_search_adapter (e : Envelope)
    (fullP : SearchArgs → ProviderOutcome)
    (minP : String → Int → ProviderOutcome) (q : String)
    (hm : e.method = some "tools/call") (ht : e.toolName = some "web_search")
    (hq : e.arguments.query = some q) (hqne : q ≠ "") :
    eventGenerator e fullP minP =
      (match runSearchAdapter fullP minP (normalizedSearchArgs q e.arguments) with
       | (.error msg, fc, mc) =>
         ⟨[⟨"error", .bareError ("Error: " ++ msg)⟩], fc, mc⟩
       | (.ok raw, fc, mc) =>
         if (filterDedup raw).isEmpty then
           ⟨[⟨"message", wrapResponse (envIsJsonrpc e) e.requestId
               (.content ("No results found for: " ++ q))⟩, doneFrame], fc, mc⟩
         else
           ⟨[⟨"message", wrapResponse (envIsJsonrpc e) e.requestId
               (.content (formatResults q (filterDedup raw)))⟩, doneFrame],
             fc, mc⟩) := by
  rw [eventGenerator, hm, ht, hq]
  simp [hqne]

/-! ## Claim theorems: dispatcher -/

/-- **C1, counterexample to the frozen claim** — an `initialize` envelope
with no `id` still receives a reply: exactly one non-`done` frame (the
`message` frame with the raw handshake result) is emitted, not zero. -/
theorem notification_silence_cex :
    ((eventGenerator
        ⟨some "initialize", none, none, none,
          ⟨none, .absent, false, none, none, none⟩⟩
        (fun _ => .ok []) (fun _ _ => .ok [])).frames.filter
      (fun fr => fr.event != "done")).length = 1 := by
  decide

/-- **C1 (amended)** — for an envelope lacking an `id`: the methods
`notifications/initialized` and `notifications/cancelled` produce zero
result/error frames (only the trailing `done`), while `initialize`,
`resources/list` and `tools/list` each produce exactly one `message` frame
carrying the raw (unwrapped) result, followed by `done` — regardless of
wrapping mode. -/
theorem no_id_reply_frames (e : Envelope)
    (fullP : SearchArgs → ProviderOutcome)
    (minP : String → Int → ProviderOutcome)
    (hid : e.requestId = none) :
    (e.method = some "initialize" →
      (eventGenerator e fullP minP).frames =
        [⟨"message", .result (.initializeResult "2025-06-18"
            "DuckDuckGo Web Search" APP_VERSION)⟩, doneFrame])
    ∧ (e.method = some "resources/list" →
      (eventGenerator e fullP minP).frames =
        [⟨"message", .result (.resourcesListResult "mcp://duckduckgo/search"
            "DuckDuckGo Search" "Web search via DuckDuckGo")⟩, doneFrame])
    ∧ (e.method = some "tools/list" →
      (eventGenerator e fullP minP).frames =
        [⟨"message", .result (.toolsListResult "web_search" ["query"])⟩,
          doneFrame])
    ∧ (e.method = some "notifications/initialized" →
      (eventGenerator e fullP minP).frames = [doneFrame])
    ∧ (e.method = some "notifications/cancelled" →
      (eventGenerator e fullP minP).frames = [doneFrame]) := by
  refine ⟨?_, ?_, ?_, ?_, ?_⟩ <;> intro hm <;>
    simp [eventGenerator, hm, hid, wrapResponse]

/-- Concrete run of `no_id_reply_frames` on an id-less `initialize`
envelope. -/
theorem no_id_reply_frames_witness :
    ((⟨some "initialize", none, some "2.0", none,
        ⟨none, .absent, false, none, none, none⟩⟩ :
          Envelope).method = some "initialize" →
      (eventGenerator
        ⟨some "initialize", none, some "2.0", none,
          ⟨none, .absent, false, none, none, none⟩⟩
        (fun _ => .ok []) (fun _ _ => .ok [])).frames =
        [⟨"message", .result (.initializeResult "2025-06-18"
            "DuckDuckGo Web Search" APP_VERSION)⟩, doneFrame])
    ∧ ((⟨some "initialize", none, some "2.0", none,
        ⟨none, .absent, false, none, none, none⟩⟩ :
          Envelope).method = some "resources/list" →
      (eventGenerator
        ⟨some "initialize", none, some "2.0", none,
          ⟨none, .absent, false, none, none, none⟩⟩
        (fun _ => .ok []) (fun _ _ => .ok [])).frames =
        [⟨"message", .result (.resourcesListResult "mcp://duckduckgo/search"
            "DuckDuckGo Search" "Web search via DuckDuckGo")⟩, doneFrame])
    ∧ ((⟨some "initialize", none, some "2.0", none,
        ⟨none, .absent, false, none, none, none⟩⟩ :
          Envelope).method = some "tools/list" →
      (eventGenerator
        ⟨some "initialize", none, some "2.0", none,
          ⟨none, .absent, false, none, none, none⟩⟩
        (fun _ => .ok []) (fun _ _ => .ok [])).frames =
        [⟨"message", .result (.toolsListResult "web_search" ["query"])⟩,
          doneFrame])
    ∧ ((⟨some "initialize", none, some "2.0", none,
        ⟨none, .absent, false, none, none, none⟩⟩ :
          Envelope).method = some "notifications/initialized" →
      (eventGenerator
        ⟨some "initialize", none, some "2.0", none,
          ⟨none, .absent, false, none, none, none⟩⟩
        (fun _ => .ok []) (fun _ _ => .ok [])).frames = [doneFrame])
    ∧ ((⟨some "initialize", none, some "2.0", none,
        ⟨none, .absent, false, none, none, none⟩⟩ :
          Envelope).method = some "notifications/cancelled" →
      (eventGenerator
        ⟨some "initialize", none, some "2.0", none,
          ⟨none, .absent, false, none, none, none⟩⟩
        (fun _ => .ok []) (fun _ _ => .ok [])).frames = [doneFrame]) :=
  no_id_reply_frames
    ⟨some "initialize", none, some "2.0", none,
      ⟨none, .absent, false, none, none, none⟩⟩
    (fun _ => .ok []) (fun _ _ => .ok []) rfl

/-- **C3** — a `tools/call` for `web_search` whose `query` argument is
missing or empty, in JSON-RPC mode with an `id`, yields exactly one
`message` frame whose payload is a JSON-RPC error object with the
"invalid params" code `-32602`, and no `done` frame follows. -/
theorem missing_query_error_no_done (e : Envelope)
    (fullP : SearchArgs → ProviderOutcome)
    (minP : String → Int → ProviderOutcome) (i : Int)
    (hm : e.method = some "tools/call") (ht : e.toolName = some "web_search")
    (hq : e.arguments.query = none ∨ e.arguments.query = some "")
    (hj : e.jsonrpc = some "2.0") (hid : e.requestId = some i) :
    (eventGenerator e fullP minP).frames =
      [⟨"message", .wrappedError i (-32602) "query parameter is required"⟩]
    ∧ ∀ fr ∈ (eventGenerator e fullP minP).frames, fr ≠ doneFrame := by
  have hframes : (eventGenerator e fullP minP).frames =
      [⟨"message", .wrappedError i (-32602) "query parameter is required"⟩] := by
    rcases hq with hq | hq <;>
      · rw [eventGenerator, hm, ht, hq]
        simp [errorFrame, envIsJsonrpc, hj, hid]
  refine ⟨hframes, ?_⟩
  rw [hframes]
  intro fr hfr
  rcases List.mem_singleton.mp hfr with rfl
  simp [doneFrame]

/-- Concrete run of `missing_query_error_no_done` on an argument set with no
`query` key. -/
theorem missing_query_error_no_done_witness :
    (eventGenerator
        ⟨some "tools/call", some 2, some "2.0", some "web_search",
          ⟨none, .absent, false, none, none, none⟩⟩
        (fun _ => .ok []) (fun _ _ => .ok [])).frames =
      [⟨"message", .wrappedError 2 (-32602) "query parameter is required"⟩]
    ∧ ∀ fr ∈ (eventGenerator
        ⟨some "tools/call", some 2, some "2.0", some "web_search",
          ⟨none, .absent, false, none, none, none⟩⟩
        (fun _ => .ok []) (fun _ _ => .ok [])).frames, fr ≠ doneFrame :=
  missing_query_error_no_done
    ⟨some "tools/call", some 2, some "2.0", some "web_search",
      ⟨none, .absent, false, none, none, none⟩⟩
    (fun _ => .ok []) (fun _ _ => .ok []) 2 rfl rfl (Or.inl rfl) rfl rfl

/-- **C4, counterexample to the frozen claim** — on the uncaught-failure
path (here a generic provider exception whose text matches no network
pattern) the dispatcher emits exactly one bare `error` frame and the
exchange ends **without** a `done` frame, so "every path except the
missing-query early exit ends with `done`" is false. -/
theorem done_frame_cex :
    (eventGenerator
        ⟨some "tools/call", some 7, some "2.0", some "web_search",
          ⟨some "x", .absent, false, none, none, none⟩⟩
        (fun _ => .fail .otherError "boom") (fun _ _ => .ok [])).frames =
      [⟨"error", .bareError "Error: boom"⟩] := by
  decide

/-- **C4 (amended)** — for every dispatched envelope, on every path other
than (a) the missing/empty-query early exit and (b) the uncaught-failure
path (an adapter run whose exception escapes to the outermost handler), the
frame sequence ends with the terminal `done` frame.  On path (b) a single
generic `error` frame is emitted instead, with no `done` (see the
counterexample). -/
theorem done_frame_terminal (e : Envelope)
    (fullP : SearchArgs → ProviderOutcome)
    (minP : String → Int → ProviderOutcome)
    (h1 : isEarlyExitPath e = false)
    (h2 : isUncaughtFailurePath e fullP minP = false) :
    (eventGenerator e fullP minP).frames.getLast? = some doneFrame := by
  rcases e with ⟨method, rid, jr, tn, args⟩
  cases method with
  | none => rfl
  | some m =>
    by_cases hm1 : m = "initialize"
    · subst hm1; rfl
    · by_cases hm2 : m = "resources/list"
      · subst hm2; rfl
      · by_cases hm3 : m = "tools/list"
        · subst hm3; rfl
        · by_cases hm4 : m = "notifications/initialized"
          · subst hm4; rfl
          · by_cases hm5 : m = "notifications/cancelled"
            · subst hm5; rfl
            · by_cases hm6 : m = "tools/call"
              · subst hm6
                by_cases htn : tn = some "web_search"
                · subst htn
                  cases hq : args.query with
                  | none =>
                    exfalso
                    simp [isEarlyExitPath, queryIsFalsy, hq] at h1
                  | some q =>
                    by_cases hq0 : q = ""
                    · exfalso
                      subst hq0
                      simp [isEarlyExitPath, queryIsFalsy, hq] at h1
                    · rcases hra : runSearchAdapter fullP minP
                          (normalizedSearchArgs q args) with ⟨res, fc, mc⟩
                      cases res with
                      | error msg =>
                        exfalso
                        simp [isUncaughtFailurePath, queryIsFalsy, hq, hq0,
                          hra, exceptIsError] at h2
                      | ok raw =>
                        rw [eventGenerator_search_adapter
                          ⟨some "tools/call", rid, jr, some "web_search", args⟩
                          fullP minP q rfl rfl hq hq0, hra]
                        dsimp only
                        split <;> rfl
                · have hfr : (eventGenerator
                      ⟨some "tools/call", rid, jr, tn, args⟩ fullP
                      minP).frames =
                      [errorFrame (envIsJsonrpc
                          ⟨some "tools/call", rid, jr, tn, args⟩) rid (-32601)
                          ("Unknown tool: " ++ pyStr tn), doneFrame] := by
                    rw [eventGenerator]
                    simp [htn]
                  rw [hfr]
                  rfl
              · have hfr : (eventGenerator
                    ⟨some m, rid, jr, tn, args⟩ fullP minP).frames =
                    [errorFrame (envIsJsonrpc ⟨some m, rid, jr, tn, args⟩)
                        rid (-32601) ("Unknown method: " ++ m), doneFrame] := by
                  rw [eventGenerator]
                  simp [hm1, hm2, hm3, hm4, hm5, hm6]
                rw [hfr]
                rfl

/-- Concrete run of `done_frame_terminal` on an `initialize` request. -/
theorem done_frame_terminal_witness :
    (eventGenerator
        ⟨some "initialize", some 1, some "2.0", none,
          ⟨none, .absent, false, none, none, none⟩⟩
        (fun _ => .ok []) (fun _ _ => .ok [])).frames.getLast? =
      some doneFrame :=
  done_frame_terminal
    ⟨some "initialize", some 1, some "2.0", none,
      ⟨none, .absent, false, none, none, none⟩⟩
    (fun _ => .ok []) (fun _ _ => .ok []) (by decide) (by decide)

/-- **C7** — for every searched `web_search` call the provider is invoked
exactly once with the resolved effective count: the hard cap 10 whenever
`all_results` is true; otherwise the parsed `max_results` (5 on parse
failure or absence) clamped into `[1, 10]` — in particular a requested 500
clamps to 10. -/
theorem effective_count_spec (e : Envelope)
    (fullP : SearchArgs → ProviderOutcome)
    (minP : String → Int → ProviderOutcome) (q : String)
    (hm : e.method = some "tools/call") (ht : e.toolName = some "web_search")
    (hq : e.arguments.query = some q) (hqne : q ≠ "") :
    (eventGenerator e fullP minP).fullCalls =
      [normalizedSearchArgs q e.arguments]
    ∧ (normalizedSearchArgs q e.arguments).maxResults =
        resolveEffectiveMax e.arguments.allResults e.arguments.maxResults
    ∧ (e.arguments.allResults = true →
        resolveEffectiveMax e.arguments.allResults e.arguments.maxResults = 10)
    ∧ resolveEffectiveMax false (.parsed 500) = 10
    ∧ resolveEffectiveMax false .unparseable = 5
    ∧ (∀ x : MaxResultsArg, 1 ≤ resolveEffectiveMax false x ∧
        resolveEffectiveMax false x ≤ 10) := by
  refine ⟨?_, rfl, ?_, by decide, by decide, ?_⟩
  · rw [eventGenerator_search_adapter e fullP minP q hm ht hq hqne]
    rcases hra : runSearchAdapter fullP minP (normalizedSearchArgs q e.arguments)
      with ⟨res, fc, mc⟩
    have hfc : fc = [normalizedSearchArgs q e.arguments] := by
      have hcalls := runSearchAdapter_calls fullP minP
        (normalizedSearchArgs q e.arguments)
      rw [hra] at hcalls
      exact hcalls
    cases res with
    | error msg => simpa using hfc
    | ok raw =>
      dsimp only
      split <;> simpa using hfc
  · intro ha
    simp [resolveEffectiveMax, ha, MAX_ALL_RESULTS_CAP]
  · intro x
    cases x with
    | absent => exact ⟨by decide, by decide⟩
    | unparseable => exact ⟨by decide, by decide⟩
    | parsed k =>
      constructor
      · exact le_max_left 1 _
      · exact max_le (by decide) (le_trans (min_le_right k MAX_RESULTS_CAP)
          (by decide))

/-- Concrete run of `effective_count_spec`: `max_results: 500`,
`all_results: false`. -/
theorem effective_count_spec_witness :
    (eventGenerator
        ⟨some "tools/call", some 3, some "2.0", some "web_search",
          ⟨some "lean", .parsed 500, false, none, none, none⟩⟩
        (fun _ => .ok []) (fun _ _ => .ok [])).fullCalls =
      [normalizedSearchArgs "lean"
        ⟨some "lean", .parsed 500, false, none, none, none⟩]
    ∧ (normalizedSearchArgs "lean"
        ⟨some "lean", .parsed 500, false, none, none, none⟩).maxResults =
        resolveEffectiveMax false (.parsed 500)
    ∧ (false = true → resolveEffectiveMax false (.parsed 500) = 10)
    ∧ resolveEffectiveMax false (.parsed 500) = 10
    ∧ resolveEffectiveMax false .unparseable = 5
    ∧ (∀ x : MaxResultsArg, 1 ≤ resolveEffectiveMax false x ∧
        resolveEffectiveMax false x ≤ 10) :=
  effective_count_spec
    ⟨some "tools/call", some 3, some "2.0", some "web_search",
      ⟨some "lean", .parsed 500, false, none, none, none⟩⟩
    (fun _ => .ok []) (fun _ _ => .ok []) "lean" rfl rfl rfl (by decide)

/-- **C9** — when the provider raises a generic (non-`TypeError`) exception
whose text is classified as network/resolution-related by the substring
test, a searched `web_search` call absorbs the failure as zero results: the
output is exactly one `message` frame carrying the fixed
"No results found for: query" text plus the `done` frame, and no `error`
frame is ever emitted. -/
theorem network_error_absorbed (e : Envelope)
    (minP : String → Int → ProviderOutcome) (q msg : String)
    (hm : e.method = some "tools/call") (ht : e.toolName = some "web_search")
    (hq : e.arguments.query = some q) (hqne : q ≠ "")
    (hnet : isNetworkError msg = true) :
    ((eventGenerator e (fun _ => .fail .otherError msg) minP).frames =
      [⟨"message", wrapResponse (envIsJsonrpc e) e.requestId
          (.content ("No results found for: " ++ q))⟩, doneFrame])
    ∧ ∀ fr ∈ (eventGenerator e (fun _ => .fail .otherError msg) minP).frames,
        fr.event ≠ "error" := by
  have hra : runSearchAdapter (fun _ => .fail .otherError msg) minP
      (normalizedSearchArgs q e.arguments) =
      (.ok [], [normalizedSearchArgs q e.arguments], []) := by
    simp [runSearchAdapter, hnet]
  have hframes : (eventGenerator e (fun _ => .fail .otherError msg) minP).frames =
      [⟨"message", wrapResponse (envIsJsonrpc e) e.requestId
          (.content ("No results found for: " ++ q))⟩, doneFrame] := by
    rw [eventGenerator_search_adapter e (fun _ => .fail .otherError msg) minP q
      hm ht hq hqne, hra]
    simp [filterDedup, filterDedupGo]
  refine ⟨hframes, ?_⟩
  rw [hframes]
  intro fr hfr
  rcases List.mem_cons.mp hfr with rfl | hfr
  · simp
  · rcases List.mem_singleton.mp hfr with rfl
    simp [doneFrame]

/-- Concrete run of `network_error_absorbed` with a connection failure. -/
theorem network_error_absorbed_witness :
    ((eventGenerator
        ⟨some "tools/call", some 4, some "2.0", some "web_search",
          ⟨some "lean", .absent, false, none, none, none⟩⟩
        (fun _ => .fail .otherError "connection refused")
        (fun _ _ => .ok [])).frames =
      [⟨"message", wrapResponse (envIsJsonrpc
          ⟨some "tools/call", some 4, some "2.0", some "web_search",
            ⟨some "lean", .absent, false, none, none, none⟩⟩)
          (some 4) (.content ("No results found for: " ++ "lean"))⟩,
        doneFrame])
    ∧ ∀ fr ∈ (eventGenerator
        ⟨some "tools/call", some 4, some "2.0", some "web_search",
          ⟨some "lean", .absent, false, none, none, none⟩⟩
        (fun _ => .fail .otherError "connection refused")
        (fun _ _ => .ok [])).frames, fr.event ≠ "error" :=
  network_error_absorbed
    ⟨some "tools/call", some 4, some "2.0", some "web_search",
      ⟨some "lean", .absent, false, none, none, none⟩⟩
    (fun _ _ => .ok []) "lean" "connection refused" rfl rfl rfl (by decide)
    (by decide)

/-- **C10** — the missing-query check rejects only a falsy query: a
nonempty, whitespace-only `query` such as `"   "` passes `if not query`,
the pipeline proceeds to the provider invocation (exactly one full call),
and one `message` frame followed by the `done` frame is emitted. -/
theorem whitespace_query_accepted (e : Envelope)
    (minP : String → Int → ProviderOutcome) (q : String)
    (rs : List RawRecord)
    (hm : e.method = some "tools/call") (ht : e.toolName = some "web_search")
    (hq : e.arguments.query = some q) (hne : q ≠ "")
    (hws : pyStrip q = "") :
    (eventGenerator e (fun _ => .ok rs) minP).fullCalls =
      [normalizedSearchArgs q e.arguments]
    ∧ ∃ p, (eventGenerator e (fun _ => .ok rs) minP).frames =
        [⟨"message", p⟩, doneFrame] := by
  have hra : runSearchAdapter (fun _ => .ok rs) minP
      (normalizedSearchArgs q e.arguments) =
      (.ok rs, [normalizedSearchArgs q e.arguments], []) := by
    simp [runSearchAdapter]
  constructor
  · rw [eventGenerator_search_adapter e (fun _ => .ok rs) minP q hm ht hq hne,
      hra]
    dsimp only
    split <;> rfl
  · rw [eventGenerator_search_adapter e (fun _ => .ok rs) minP q hm ht hq hne,
      hra]
    dsimp only
    by_cases hempty : (filterDedup rs).isEmpty = true
    · refine ⟨wrapResponse (envIsJsonrpc e) e.requestId
        (.content ("No results found for: " ++ q)), ?_⟩
      simp [hempty]
    · simp only [Bool.not_eq_true] at hempty
      refine ⟨wrapResponse (envIsJsonrpc e) e.requestId
        (.content (formatResults q (filterDedup rs))), ?_⟩
      simp [hempty]

/-- Concrete run of `whitespace_query_accepted` on the query `"   "`. -/
theorem whitespace_query_accepted_witness :
    (eventGenerator
        ⟨some "tools/call", some 5, some "2.0", some "web_search",
          ⟨some "   ", .absent, false, none, none, none⟩⟩
        (fun _ => .ok []) (fun _ _ => .ok [])).fullCalls =
      [normalizedSearchArgs "   "
        ⟨some "   ", .absent, false, none, none, none⟩]
    ∧ ∃ p, (eventGenerator
        ⟨some "tools/call", some 5, some "2.0", some "web_search",
          ⟨some "   ", .absent, false, none, none, none⟩⟩
        (fun _ => .ok []) (fun _ _ => .ok [])).frames =
        [⟨"message", p⟩, doneFrame] :=
  whitespace_query_accepted
    ⟨some "tools/call", some 5, some "2.0", some "web_search",
      ⟨some "   ", .absent, false, none, none, none⟩⟩
    (fun _ _ => .ok []) "   " [] rfl rfl rfl (by decide) (by decide)

/-! ## `search_web` lemmas -/

theorem cacheSet_config {α : Type} (c : SearchCache α) (now : Int)
    (q : String) (n : Int) (d : α) :
    (cacheSet c now q n d).enabled = c.enabled ∧
      (cacheSet c now q n d).ttl = c.ttl := by
  cases henb : c.enabled with
  | false => simp [cacheSet, henb]
  | true =>
    simp only [cacheSet, henb, Bool.true_eq_false, if_false]
    refine ⟨?_, (evictOldest_config c).2.1⟩
    rw [(evictOldest_config c).1, henb]

theorem cacheSet_findEntry_self {α : Type} (c : SearchCache α) (now : Int)
    (q : String) (n : Int) (d : α) (hen : c.enabled = true) :
    findEntry (generateKey q n) (cacheSet c now q n d).entries =
      some ⟨generateKey q n, now, d⟩ := by
  simp only [cacheSet, hen, Bool.true_eq_false, if_false]
  exact findEntry_putEntry _ _ _ _

theorem searchWeb_miss (c : SearchCache SWData) (t : Int) (q : String)
    (n : Int) (i : String) (raws : List RawRecord)
    (hen : c.enabled = true)
    (hmiss : findEntry (generateKey q n) c.entries = none) :
    searchWeb c t q n i (.ok raws) =
      (.ok (swDataOf raws q i), cacheSet c t q n (swDataOf raws q i), 1) := by
  simp [searchWeb, cacheGet, hen, hmiss]

theorem searchWeb_hit (c : SearchCache SWData) (t : Int) (q : String)
    (n : Int) (i : String) (p : Except String (List RawRecord))
    (e : CEntry SWData)
    (hen : c.enabled = true)
    (hfind : findEntry (generateKey q n) c.entries = some e)
    (hfr : t - e.timestamp ≤ c.ttl) :
    searchWeb c t q n i p =
      (.ok (swMarkCached e.data i),
        { c with entries :=
            putDataForKey (generateKey q n) (swMarkCached e.data i) c.entries },
        0) := by
  have hb : isExpired c t e = false := by
    simp only [isExpired, gt_iff_lt, decide_eq_false_iff_not, not_lt]
    omega
  simp [searchWeb, cacheGet, hen, hfind, hb]

/-! ## Claim theorems: cache in the pipelines -/

/-- **C2, counterexample to the frozen claim** — the `tools/call` search
pipeline of the SSE dispatcher consults no cache at all: the dispatcher is
stateless between requests (its only inputs are the envelope and the
provider oracle), so two successive identical search dispatches perform two
provider invocations in total — not one — and no frame of either response
carries a served-from-cache marking. -/
theorem tools_call_no_cache_cex :
    (eventGenerator
        ⟨some "tools/call", some 2, some "2.0", some "web_search",
          ⟨some "lean", .absent, false, none, none, none⟩⟩
        (fun _ => .ok [⟨"https://a", "t", "b"⟩])
        (fun _ _ => .ok [])).fullCalls.length
      + (eventGenerator
        ⟨some "tools/call", some 2, some "2.0", some "web_search",
          ⟨some "lean", .absent, false, none, none, none⟩⟩
        (fun _ => .ok [⟨"https://a", "t", "b"⟩])
        (fun _ _ => .ok [])).fullCalls.length = 2 := by
  decide

/-- **C2 (amended)** — the cache-backed pipeline is the `/search` HTTP
endpoint (`search_web` in `src/src/server.py`), not the SSE `tools/call`
pipeline: there, a cache lookup keyed by `(query, max_results)` precedes
the provider invocation, so for an enabled cache (capacity ≥ 1) with no
entry for the key, two successive identical requests within the TTL window
invoke the provider exactly once in total (1 then 0, whatever the second
request's provider would return), the first response is marked
`cached: false` and the second `cached: true`. -/
theorem search_endpoint_cache_scenarioD (c : SearchCache SWData)
    (t0 t1 : Int) (q : String) (n : Int) (i1 i2 : String)
    (raws : List RawRecord) (p : Except String (List RawRecord))
    (hen : c.enabled = true)
    (hmiss : findEntry (generateKey q n) c.entries = none)
    (hfresh : t1 - t0 ≤ c.ttl) :
    (searchWeb c t0 q n i1 (.ok raws)).2.2 = 1
    ∧ (∃ d1, (searchWeb c t0 q n i1 (.ok raws)).1 = .ok d1 ∧
        d1.cached = false)
    ∧ (searchWeb (searchWeb c t0 q n i1 (.ok raws)).2.1 t1 q n i2 p).2.2 = 0
    ∧ (∃ d2, (searchWeb (searchWeb c t0 q n i1 (.ok raws)).2.1
        t1 q n i2 p).1 = .ok d2 ∧ d2.cached = true) := by
  have h1 := searchWeb_miss c t0 q n i1 raws hen hmiss
  have hc1 : (searchWeb c t0 q n i1 (.ok raws)).2.1 =
      cacheSet c t0 q n (swDataOf raws q i1) := by rw [h1]
  have hen1 : (cacheSet c t0 q n (swDataOf raws q i1)).enabled = true := by
    rw [(cacheSet_config c t0 q n (swDataOf raws q i1)).1]
    exact hen
  have httl1 : (cacheSet c t0 q n (swDataOf raws q i1)).ttl = c.ttl :=
    (cacheSet_config c t0 q n (swDataOf raws q i1)).2
  have hfind1 : findEntry (generateKey q n)
      (cacheSet c t0 q n (swDataOf raws q i1)).entries =
      some ⟨generateKey q n, t0, swDataOf raws q i1⟩ :=
    cacheSet_findEntry_self c t0 q n (swDataOf raws q i1) hen
  have h2 := searchWeb_hit (cacheSet c t0 q n (swDataOf raws q i1)) t1 q n i2 p
    ⟨generateKey q n, t0, swDataOf raws q i1⟩ hen1 hfind1
    (by rw [httl1]; exact hfresh)
  refine ⟨by rw [h1], ⟨swDataOf raws q i1, by rw [h1], rfl⟩, ?_, ?_⟩
  · rw [hc1, h2]
  · rw [hc1, h2]
    exact ⟨_, rfl, rfl⟩

/-- Concrete run of `search_endpoint_cache_scenarioD` from an empty cache:
miss then hit within the TTL. -/
theorem search_endpoint_cache_scenarioD_witness :
    (searchWeb ⟨true, 3600, 1000, []⟩ 100 "q" 5 "a" (.ok [])).2.2 = 1
    ∧ (∃ d1, (searchWeb ⟨true, 3600, 1000, []⟩ 100 "q" 5 "a" (.ok [])).1 =
        .ok d1 ∧ d1.cached = false)
    ∧ (searchWeb (searchWeb ⟨true, 3600, 1000, []⟩ 100 "q" 5 "a"
        (.ok [])).2.1 200 "q" 5 "b" (.error "x")).2.2 = 0
    ∧ (∃ d2, (searchWeb (searchWeb ⟨true, 3600, 1000, []⟩ 100 "q" 5 "a"
        (.ok [])).2.1 200 "q" 5 "b" (.error "x")).1 = .ok d2 ∧
        d2.cached = true) :=
  search_endpoint_cache_scenarioD ⟨true, 3600, 1000, []⟩ 100 200 "q" 5 "a"
    "b" [] (.error "x") rfl rfl (by decide)

end Duck
